import Mathlib

/-!
Verification of the tbot U-Boot machine automaton.

This file gives a shallow embedding of the code in
src/tbot/machine/board/uboot.py together with models of the external
collaborators it uses (the Channel byte-stream abstraction, the board
power lifecycle and the target shell), and proves the specified
properties about them.  Strings are embedded as `List Char`.
-/

namespace Tbot

/-- The single-quote character, written via its code point. -/
def squote : Char := Char.ofNat 39

/-- The double-quote character, written via its code point. -/
def dquote : Char := Char.ofNat 34

/-- The backslash character, written via its code point. -/
def bslash : Char := Char.ofNat 92

/-- The backtick character, written via its code point. -/
def btick : Char := Char.ofNat 96

/-- Characters Python shlex.quote considers safe: the ASCII regex
class in shlex is all of \w plus the punctuation characters at-sign,
percent, plus, equals, colon, comma, dot, slash and dash; anything
else forces quoting. -/
def isSafeChar (c : Char) : Bool :=
  c.isAlphanum || c = '_' || c = '@' || c = '%' || c = '+' || c = '=' ||
    c = ':' || c = ',' || c = '.' || c = '/' || c = '-'

/-- Body rewriting done by Python shlex.quote for a string that needs
quoting: every single quote in the argument becomes the five-character
sequence quote, dquote, quote, dquote, quote (the replace call in
shlex.quote). -/
def shQuoteInner : List Char → List Char
  | [] => []
  | c :: cs =>
    if c = squote then
      squote :: dquote :: squote :: dquote :: squote :: shQuoteInner cs
    else
      c :: shQuoteInner cs

/-- Embedding of Python shlex.quote: the empty string becomes a pair of
single quotes, a string of safe characters is returned unchanged, and
anything else is wrapped in single quotes with embedded single quotes
rewritten by `shQuoteInner`. -/
def shlexQuote (s : List Char) : List Char :=
  if s = [] then [squote, squote]
  else if s.all isSafeChar then s
  else squote :: (shQuoteInner s ++ [squote])

/-- Argument to build_command.  A plain string is shell-quoted by
`shlexQuote`; a raw special token (Modelled from the spec: special
tokens such as board.Raw supply their own unescaped textual expansion,
tbot/machine/board/special.py is not in src/) contributes its text
verbatim. -/
inductive UArg
  | str : List Char → UArg
  | raw : List Char → UArg
deriving DecidableEq, Repr

/-- The per-argument rendering inside the loop of
UBootMachine.build_command: paths and specials resolve to their own
text, everything else goes through shlex.quote. -/
def renderArg : UArg → List Char
  | .str s => shlexQuote s
  | .raw t => t

/-- Embedding of UBootMachine.build_command: each argument is rendered
and followed by a single blank, and the final blank is removed by the
slice command[:-1] (which on the empty string is the empty string,
exactly `List.dropLast`). -/
def build_command (args : List UArg) : List Char :=
  ((args.map (fun a => renderArg a ++ [' '])).flatten).dropLast

/-!
A POSIX word splitter.  Modelled from the spec: the target shell is an
external collaborator; this models its field splitting and quote
removal (single quotes literal, double quotes with backslash escapes
for dollar, backtick, double quote, backslash and line continuation,
backslash escapes outside quotes), without expansions, as used by the
quoting round-trip property.
-/

mutual

/-- Word splitting outside of any quotes.  The accumulator is `none`
between words and `some acc` (reversed characters) inside a word, so
that an empty pair of quotes still produces an (empty) word. -/
def fsNorm : Option (List Char) → List Char → Option (List (List Char))
  | acc, [] =>
    some (match acc with
          | none => []
          | some a => [a.reverse])
  | acc, c :: cs =>
    if c = ' ' then
      match acc with
      | none => fsNorm none cs
      | some a => (fsNorm none cs).map (fun ws => a.reverse :: ws)
    else if c = squote then fsSingle (acc.getD []) cs
    else if c = dquote then fsDouble (acc.getD []) cs
    else if c = bslash then
      match cs with
      | [] => none
      | d :: ds =>
        if d = '\n' then fsNorm acc ds
        else fsNorm (some (d :: acc.getD [])) ds
    else fsNorm (some (c :: acc.getD [])) cs

/-- Word splitting inside single quotes: everything is literal until
the closing single quote; an unterminated quote is a parse error. -/
def fsSingle : List Char → List Char → Option (List (List Char))
  | _, [] => none
  | acc, c :: cs =>
    if c = squote then fsNorm (some acc) cs
    else fsSingle (c :: acc) cs

/-- Word splitting inside double quotes: backslash escapes dollar,
backtick, double quote, backslash and a newline (line continuation);
everything else is literal until the closing double quote. -/
def fsDouble : List Char → List Char → Option (List (List Char))
  | _, [] => none
  | acc, c :: cs =>
    if c = dquote then fsNorm (some acc) cs
    else if c = bslash then
      match cs with
      | [] => none
      | d :: ds =>
        if d = dquote ∨ d = bslash ∨ d = '$' ∨ d = btick then
          fsDouble (d :: acc) ds
        else if d = '\n' then fsDouble acc ds
        else fsDouble (d :: bslash :: acc) ds
    else fsDouble (c :: acc) cs

end

/-- Split a command line into its words the way the target shell
would. -/
def fieldSplit (l : List Char) : Option (List (List Char)) :=
  fsNorm none l

/-!
The Channel model.  Modelled from the spec: the Channel implementation
(tbot/machine/channel) is not in src/; per the spec it is a byte
stream with an open/closed flag, a pending buffer of bytes not yet
consumed by a match, and peer-close detection, where
read_until_prompt returns the accumulated text up to and including
the earliest match of a literal or regex pattern and leaves the
following bytes buffered, independent of read chunking.
-/

structure Channel where
  pending : List Char
  peerClosed : Bool
  closed : Bool
deriving DecidableEq, Repr

/-- Channel.isopen reflects the open/closed flag without doing I/O. -/
def isopen (ch : Channel) : Bool := !ch.closed

/-- Errors of the automaton: the channel-closed and timeout failures
of the Channel contract, the RuntimeError raised by
UBootMachine.__init__ for a board without a serial connection, the
IndexError from the bootlog slice, and the RuntimeError raised by
UBootMachine.interactive when the prompt cannot be re-acquired. -/
inductive UErr
  | noChannel
  | timeout
  | channelClosed
  | indexError
  | reacquireFailed
deriving DecidableEq, Repr

/-- End position of the earliest match of a literal pattern inside the
accumulated buffer: the least k such that the pattern is a suffix of
the first k characters. -/
def literalMatchEnd (pat buf : List Char) : Option Nat :=
  (List.range (buf.length + 1)).find? (fun k => pat.isSuffixOf (buf.take k))

/-- End position of the earliest match of a pattern, literal or regex.
A regex engine is an external collaborator: it is passed in as a
function from pattern and buffer to the end position of the earliest
match, and literal patterns are searched by `literalMatchEnd`. -/
def matchEnd (re : List Char → List Char → Option Nat) (pat : List Char)
    (regex : Bool) (buf : List Char) : Option Nat :=
  if regex then re pat buf else literalMatchEnd pat buf

/-- Channel.read_until_prompt: fails on a closed channel, times out if
the pattern never matches, and otherwise returns the accumulated text
up to and including the match, leaving the rest buffered. -/
def read_until_prompt (re : List Char → List Char → Option Nat) (ch : Channel)
    (pat : List Char) (regex : Bool) : Except UErr (List Char × Channel) :=
  if ch.closed then .error .channelClosed
  else
    match matchEnd re pat regex ch.pending with
    | some k => .ok (ch.pending.take k, { ch with pending := ch.pending.drop k })
    | none => .error .timeout

/-- Channel.send: writes raw bytes; fails if the channel is closed.
The sent bytes do not alter the incoming stream in this model. -/
def send_ch (ch : Channel) (_data : List Char) : Except UErr Channel :=
  if ch.closed then .error .channelClosed else .ok ch

/-- The channel operations performed by UBootMachine.__init__, in
order. -/
inductive BootEvent
  | read_until (pat : List Char) (regex : Bool)
  | send (keys : List Char)
deriving DecidableEq, Repr

/-- Configuration attributes of a UBootMachine subclass:
autoboot_prompt (a regex, or none when autoboot is disabled),
autoboot_keys and the steady prompt. -/
structure UBootConfig where
  autoboot_prompt : Option (List Char)
  autoboot_keys : List Char
  prompt : List Char

/-- The Python slice split-on-newline-once-index-one: everything after
the first newline of the string, or failure (IndexError) when the
string contains no newline. -/
def splitFirstLine : List Char → Option (List Char)
  | [] => none
  | c :: cs => if c = '\n' then some cs else splitFirstLine cs

/-- Embedding of UBootMachine.__init__ (uboot.py lines 73 to 100): a
board without a channel raises RuntimeError; with autoboot enabled
the machine reads up to the autoboot prompt as a regex (streamed to
the boot log sink), sends autoboot_keys and reads up to the literal
steady prompt (not streamed); with autoboot disabled it reads up to
the literal steady prompt (streamed); finally bootlog is set to the
sink contents with the first line removed by an index-one slice.

The result pairs the outcome (bootlog and final channel, or the
raised error) with the list of channel operations performed. -/
def uboot_init (re : List Char → List Char → Option Nat) (cfg : UBootConfig)
    (board_channel : Option Channel) :
    Except UErr (List Char × Channel) × List BootEvent :=
  match board_channel with
  | none => (.error .noChannel, [])
  | some ch =>
    match cfg.autoboot_prompt with
    | some ap =>
      match read_until_prompt re ch ap true with
      | .error e => (.error e, [.read_until ap true])
      | .ok (boot_log, ch1) =>
        match send_ch ch1 cfg.autoboot_keys with
        | .error e => (.error e, [.read_until ap true, .send cfg.autoboot_keys])
        | .ok ch2 =>
          match read_until_prompt re ch2 cfg.prompt false with
          | .error e =>
            (.error e,
              [.read_until ap true, .send cfg.autoboot_keys, .read_until cfg.prompt false])
          | .ok (_, ch3) =>
            match splitFirstLine boot_log with
            | none =>
              (.error .indexError,
                [.read_until ap true, .send cfg.autoboot_keys, .read_until cfg.prompt false])
            | some bl =>
              (.ok (bl, ch3),
                [.read_until ap true, .send cfg.autoboot_keys, .read_until cfg.prompt false])
    | none =>
      match read_until_prompt re ch cfg.prompt false with
      | .error e => (.error e, [.read_until cfg.prompt false])
      | .ok (boot_log, ch1) =>
        match splitFirstLine boot_log with
        | none => (.error .indexError, [.read_until cfg.prompt false])
        | some bl => (.ok (bl, ch1), [.read_until cfg.prompt false])

/-- The text the boot log sink captures during construction: the
stream up to and including the earliest match of the autoboot regex,
or, with autoboot disabled, up to and including the earliest match of
the literal steady prompt. -/
def captured_log (re : List Char → List Char → Option Nat) (cfg : UBootConfig)
    (ch : Channel) : Option (List Char) :=
  match cfg.autoboot_prompt with
  | some ap => (matchEnd re ap true ch.pending).map (fun k => ch.pending.take k)
  | none => (matchEnd re cfg.prompt false ch.pending).map (fun k => ch.pending.take k)

/-- Whitespace as matched by the regex class backslash-s. -/
def isSpaceChar (c : Char) : Bool :=
  c = ' ' || c = Char.ofNat 10 || c = Char.ofNat 9 || c = Char.ofNat 13

/-- The literal part of the default autoboot prompt regex. -/
def autobootBanner : List Char := "Hit any key to stop autoboot:".toList

/-- Whether a match of the default autoboot regex (the banner followed
by whitespace, digits, whitespace) ends exactly at the end of the
buffer.  The three runs are forced because whitespace and digits are
disjoint character classes. -/
def endsWithAutoboot (l : List Char) : Bool :=
  let r := l.reverse
  let p1 := r.span isSpaceChar
  let p2 := p1.2.span Char.isDigit
  let p3 := p2.2.span isSpaceChar
  (!p1.1.isEmpty) && (!p2.1.isEmpty) && (!p3.1.isEmpty) &&
    autobootBanner.reverse.isPrefixOf p3.2

/-- A concrete regex engine implementing the default autoboot_prompt
regex of UBootMachine, used to run the automaton on concrete
streams: the end position of the earliest match is the least buffer
length at which a match ends. -/
def autobootRe (_pat buf : List Char) : Option Nat :=
  (List.range (buf.length + 1)).find? (fun k => endsWithAutoboot (buf.take k))

/-- The boot stream of the specified scenario. -/
def sampleStream : List Char :=
  "U-Boot 2020.01\nHit any key to stop autoboot:  3 \n=> ".toList

/-- The default UBootMachine configuration of the specified scenario:
the autoboot regex, a newline as autoboot_keys and the steady
prompt. -/
def sampleCfg : UBootConfig :=
  { autoboot_prompt := some ("Hit any key to stop autoboot:\\s+\\d+\\s+".toList),
    autoboot_keys := "\n".toList,
    prompt := "=> ".toList }

/-- An open channel holding the scenario boot stream. -/
def sampleCh : Channel :=
  { pending := sampleStream, peerClosed := false, closed := false }

/-- A configuration with autoboot disabled whose stream reaches the
prompt without any newline before it. -/
def noNlCfg : UBootConfig :=
  { autoboot_prompt := none, autoboot_keys := "\n".toList, prompt := "=> ".toList }

/-- An open channel whose whole stream is just the prompt. -/
def noNlCh : Channel :=
  { pending := "=> ".toList, peerClosed := false, closed := false }

/-!
The command protocol.  The return-code recovery mechanism
(Channel.raw_command_with_retval) is part of the Channel, which is not
in src/: it is modelled as a function from the built command line to
the pair of return code and captured output.
-/

/-- The data carried by tbot.machine.CommandFailedException: the
machine identity, the command line passed to it, and the captured
output. -/
structure CommandFailed where
  machine : List Char
  command : List Char
  output : List Char
deriving DecidableEq, Repr

/-- Embedding of UBootMachine.exec: build the command line, then run
it through the channel's command-with-return-value operation
(Modelled from the spec: Channel.raw_command_with_retval is not in
src/ and is passed in as the function runCmd). -/
def exec (runCmd : List Char → Int × List Char) (args : List UArg) :
    Int × List Char :=
  runCmd (build_command args)

/-- Embedding of UBootMachine.exec0: run exec, raise
CommandFailedException carrying the machine, the built command and
the output when the return code is non-zero, and return the output
otherwise. -/
def exec0 (name : List Char) (runCmd : List Char → Int × List Char)
    (args : List UArg) : Except CommandFailed (List Char) :=
  let r := exec runCmd args
  if r.1 ≠ 0 then Except.error ⟨name, build_command args, r.2⟩
  else Except.ok r.2

/-- The left brace character, written via its code point. -/
def lbrace : Char := Char.ofNat 123

/-- The right brace character, written via its code point. -/
def rbrace : Char := Char.ofNat 125

/-- The dollar-brace variable reference built by UBootMachine.env. -/
def dollar_brace (var : List Char) : List Char :=
  '$' :: lbrace :: (var ++ [rbrace])

/-- The argument list env passes to exec0: the word echo and a raw
special token expanding to the dollar-brace reference. -/
def env_args (var : List Char) : List UArg :=
  [UArg.str ("echo".toList), UArg.raw (dollar_brace var)]

/-- Embedding of UBootMachine.env: exec0 of the echo-of-variable
command, with the final character of the output removed by the slice
ending at minus one (List.dropLast). -/
def env (name : List Char) (runCmd : List Char → Int × List Char)
    (var : List Char) : Except CommandFailed (List Char) :=
  (exec0 name runCmd (env_args var)).map List.dropLast

/-!
The interactive hand-off.  Channel.attach_interactive is part of the
Channel, not in src/: Modelled from the spec, it relays the session
to the operator and returns control without closing the channel; its
net effect on the incoming stream is an arbitrary function on the
pending bytes.
-/

/-- The operations UBootMachine.interactive performs on the channel. -/
inductive IAct
  | send (d : List Char)
  | attach
  | read_until_t (pat : List Char) (timeout : ℚ)
deriving DecidableEq, Repr

/-- The wake sequence sent around the interactive session: a blank and
a newline. -/
def wake : List Char := [' ', '\n']

/-- Embedding of UBootMachine.interactive: send a wake sequence,
attach the operator, send another wake sequence, then read up to the
literal steady prompt with timeout one half; a timeout there is
re-raised as the distinct reacquire failure, any other error
propagates, and on success the channel is returned open with the
prompt consumed. -/
def interactive (re : List Char → List Char → Option Nat)
    (attachFn : List Char → List Char) (prompt : List Char) (ch : Channel) :
    Except UErr Channel × List IAct :=
  match send_ch ch wake with
  | .error e => (.error e, [IAct.send wake])
  | .ok ch1 =>
    let ch2 : Channel := { ch1 with pending := attachFn ch1.pending }
    match send_ch ch2 wake with
    | .error e => (.error e, [IAct.send wake, IAct.attach, IAct.send wake])
    | .ok ch3 =>
      match read_until_prompt re ch3 prompt false with
      | .error .timeout =>
        (.error .reacquireFailed,
          [IAct.send wake, IAct.attach, IAct.send wake,
           IAct.read_until_t prompt ((1 : ℚ)/2)])
      | .error e =>
        (.error e,
          [IAct.send wake, IAct.attach, IAct.send wake,
           IAct.read_until_t prompt ((1 : ℚ)/2)])
      | .ok (_, ch4) =>
        (.ok ch4,
          [IAct.send wake, IAct.attach, IAct.send wake,
           IAct.read_until_t prompt ((1 : ℚ)/2)])

/-!
The power lifecycle.  Modelled from the spec: board.Board's scoped
session (the context manager entered and left by the selftests in
board_machine.py) is not in src/; per the spec, entering the scope
invokes power-on then connect, and leaving it — normally or with an
exception unwinding — invokes disconnect then power-off, with
guaranteed-run-on-exit semantics.  The body returns its final state,
the events it emitted and an optional exception.
-/

/-- Lifecycle calls on a board. -/
inductive PowerEvent
  | poweron
  | connect
  | disconnect
  | poweroff
deriving DecidableEq, Repr

/-- TestBoard.poweron (board_machine.py): touches the selftest_power
file; the state models that file's existence. -/
def testboard_poweron : Bool → Bool := fun _ => true

/-- TestBoard.poweroff (board_machine.py): removes the selftest_power
file. -/
def testboard_poweroff : Bool → Bool := fun _ => false

/-- A scoped board session: power on, connect, run the body, then on
every exit path disconnect and power off, propagating the body's
exception.  Returns the exception, the final state and the trace of
lifecycle events. -/
def with_board {σ ε : Type} (pon poff : σ → σ)
    (body : σ → σ × List PowerEvent × Option ε) (s : σ) :
    Option ε × σ × List PowerEvent :=
  let s1 := pon s
  let r := body s1
  (r.2.2, poff r.1,
    [PowerEvent.poweron, PowerEvent.connect] ++ r.2.1
      ++ [PowerEvent.disconnect, PowerEvent.poweroff])

/-!
Closed-channel stickiness.  Modelled from the spec: the Channel
implementation is not in src/ (src only holds the selftest in
machine.py exercising it); recv on an exhausted stream whose peer has
closed marks the channel closed, and a closed channel rejects all
further operations.
-/

/-- Channel.recv: fails if closed; on an empty buffer it either
detects the peer close (marking the channel closed, stickily) or
times out; otherwise it returns the buffered bytes. -/
def recv_ch (ch : Channel) : Except UErr (List Char) × Channel :=
  if ch.closed then (.error .channelClosed, ch)
  else if ch.pending.isEmpty then
    if ch.peerClosed then (.error .channelClosed, { ch with closed := true })
    else (.error .timeout, ch)
  else (.ok ch.pending, { ch with pending := [] })

/-- Channel.close: idempotent, sets the closed flag. -/
def close_ch (ch : Channel) : Channel := { ch with closed := true }

/-- The operations a client can perform on a channel. -/
inductive ChanOp
  | send (d : List Char)
  | recv
  | close
deriving DecidableEq, Repr

/-- One channel operation: the error it reports, if any, and the next
channel state. -/
def apply_op (ch : Channel) : ChanOp → Option UErr × Channel
  | .send d =>
    match send_ch ch d with
    | .error e => (some e, ch)
    | .ok ch2 => (none, ch2)
  | .recv =>
    match recv_ch ch with
    | (.error e, ch2) => (some e, ch2)
    | (.ok _, ch2) => (none, ch2)
  | .close => (none, close_ch ch)

/-- Run a sequence of channel operations, threading the state. -/
def run_ops (ch : Channel) : List ChanOp → Channel
  | [] => ch
  | op :: ops => run_ops (apply_op ch op).2 ops

lemma fsNorm_nil (acc : Option (List Char)) :
    fsNorm acc [] =
      some (match acc with
            | none => []
            | some a => [a.reverse]) := by
  rw [fsNorm.eq_def]

lemma fsNorm_cons (acc : Option (List Char)) (c : Char) (cs : List Char) :
    fsNorm acc (c :: cs) =
      (if c = ' ' then
        match acc with
        | none => fsNorm none cs
        | some a => (fsNorm none cs).map (fun ws => a.reverse :: ws)
      else if c = squote then fsSingle (acc.getD []) cs
      else if c = dquote then fsDouble (acc.getD []) cs
      else if c = bslash then
        match cs with
        | [] => none
        | d :: ds =>
          if d = '\n' then fsNorm acc ds
          else fsNorm (some (d :: acc.getD [])) ds
      else fsNorm (some (c :: acc.getD [])) cs) := by
  rw [fsNorm.eq_def]

lemma fsSingle_cons (a : List Char) (c : Char) (cs : List Char) :
    fsSingle a (c :: cs) =
      if c = squote then fsNorm (some a) cs else fsSingle (c :: a) cs := by
  rw [fsSingle.eq_def]

lemma fsDouble_cons (a : List Char) (c : Char) (cs : List Char) :
    fsDouble a (c :: cs) =
      (if c = dquote then fsNorm (some a) cs
      else if c = bslash then
        match cs with
        | [] => none
        | d :: ds =>
          if d = dquote ∨ d = bslash ∨ d = '$' ∨ d = btick then
            fsDouble (d :: a) ds
          else if d = '\n' then fsDouble a ds
          else fsDouble (d :: bslash :: a) ds
      else fsDouble (c :: a) cs) := by
  rw [fsDouble.eq_def]

lemma safeChar_facts {c : Char} (h : isSafeChar c = true) :
    c ≠ ' ' ∧ c ≠ squote ∧ c ≠ dquote ∧ c ≠ bslash := by
  refine ⟨?_, ?_, ?_, ?_⟩ <;> rintro rfl <;> revert h <;> decide

lemma fsNorm_safe_cons {c : Char} (h : isSafeChar c = true)
    (acc : Option (List Char)) (cs : List Char) :
    fsNorm acc (c :: cs) = fsNorm (some (c :: acc.getD [])) cs := by
  obtain ⟨h1, h2, h3, h4⟩ := safeChar_facts h
  rw [fsNorm_cons]
  simp [h1, h2, h3, h4]

lemma fsNorm_safe_run {s : List Char} (h : s.all isSafeChar)
    (a : List Char) (rest : List Char) :
    fsNorm (some a) (s ++ rest) = fsNorm (some (s.reverse ++ a)) rest := by
  induction s generalizing a with
  | nil => rfl
  | cons c cs ih =>
    rw [List.all_cons, Bool.and_eq_true] at h
    rw [List.cons_append, fsNorm_safe_cons h.1, Option.getD_some, ih h.2]
    simp

lemma fsSingle_shQuoteInner (s : List Char) (a rest : List Char) :
    fsSingle a (shQuoteInner s ++ (squote :: rest)) =
      fsNorm (some (s.reverse ++ a)) rest := by
  induction s generalizing a with
  | nil => rw [shQuoteInner, List.nil_append, fsSingle_cons, if_pos rfl, List.reverse_nil,
      List.nil_append]
  | cons c cs ih =>
    by_cases hc : c = squote
    · subst hc
      rw [shQuoteInner, if_pos rfl]
      simp only [List.cons_append]
      rw [fsSingle_cons, if_pos rfl]
      rw [fsNorm_cons]
      have hds : ¬(dquote = ' ') := by decide
      have hdsq : ¬(dquote = squote) := by decide
      rw [if_neg hds, if_neg hdsq, if_pos rfl, Option.getD_some]
      rw [fsDouble_cons]
      have hsd : ¬(squote = dquote) := by decide
      have hsb : ¬(squote = bslash) := by decide
      rw [if_neg hsd, if_neg hsb]
      rw [fsDouble_cons, if_pos rfl]
      rw [fsNorm_cons]
      have hq1 : ¬(squote = ' ') := by decide
      rw [if_neg hq1, if_pos rfl, Option.getD_some]
      rw [ih]
      simp
    · rw [shQuoteInner]
      simp only [if_neg hc, List.cons_append]
      rw [fsSingle_cons]
      simp only [if_neg hc]
      rw [ih]
      simp

lemma fsNorm_shlexQuote (s : List Char) (rest : List Char) :
    fsNorm none (shlexQuote s ++ rest) = fsNorm (some s.reverse) rest := by
  rw [shlexQuote]
  by_cases hnil : s = []
  · subst hnil
    rw [if_pos rfl]
    simp only [List.cons_append]
    rw [fsNorm_cons]
    have hq1 : ¬(squote = ' ') := by decide
    rw [if_neg hq1, if_pos rfl, Option.getD_none]
    rw [fsSingle_cons, if_pos rfl, List.reverse_nil, List.nil_append]
  · by_cases hsafe : s.all isSafeChar
    · rw [if_neg hnil, if_pos hsafe]
      obtain ⟨c, cs, rfl⟩ := List.exists_cons_of_ne_nil hnil
      rw [List.all_cons, Bool.and_eq_true] at hsafe
      rw [List.cons_append, fsNorm_safe_cons hsafe.1, Option.getD_none,
        fsNorm_safe_run hsafe.2]
      simp
    · rw [if_neg hnil, if_neg hsafe]
      simp only [List.cons_append]
      rw [fsNorm_cons]
      have hq1 : ¬(squote = ' ') := by decide
      rw [if_neg hq1, if_pos rfl, Option.getD_none]
      rw [List.append_assoc, List.singleton_append, fsSingle_shQuoteInner]
      simp

lemma fsNorm_space (a : List Char) (cs : List Char) :
    fsNorm (some a) (' ' :: cs) = (fsNorm none cs).map (fun ws => a.reverse :: ws) := by
  rw [fsNorm_cons]
  simp

lemma build_command_nil : build_command [] = [] := by
  simp [build_command]

lemma build_command_single (a : UArg) : build_command [a] = renderArg a := by
  simp [build_command]

lemma build_command_cons (a b : UArg) (args : List UArg) :
    build_command (a :: b :: args) = renderArg a ++ ' ' :: build_command (b :: args) := by
  show ((((a :: b :: args).map (fun x => renderArg x ++ [' '])).flatten)).dropLast = _
  rw [List.map_cons, List.flatten_cons]
  have hne : (((b :: args).map (fun x => renderArg x ++ [' '])).flatten) ≠ [] := by
    rw [List.map_cons, List.flatten_cons, List.append_assoc]
    intro h
    have := congrArg List.length h
    simp at this
  rw [List.dropLast_append_of_ne_nil _ hne, List.append_assoc, List.singleton_append]
  rfl

/-- C4: the quoting round-trip.  For every list of plain string
arguments, splitting the built command line with the target shell's
word splitting reconstructs the original argument list. -/
theorem build_command_roundtrip (args : List (List Char)) :
    fieldSplit (build_command (args.map UArg.str)) = some args := by
  induction args with
  | nil => rw [List.map_nil, build_command_nil, fieldSplit, fsNorm_nil]
  | cons a args ih =>
    cases args with
    | nil =>
      rw [List.map_cons, List.map_nil, build_command_single, fieldSplit]
      show fsNorm none (shlexQuote a) = some [a]
      rw [← List.append_nil (shlexQuote a), fsNorm_shlexQuote, fsNorm_nil]
      simp
    | cons b args2 =>
      simp only [List.map_cons]
      rw [build_command_cons, fieldSplit]
      show fsNorm none (shlexQuote a ++ ' ' :: build_command (UArg.str b :: args2.map UArg.str)) = _
      rw [fsNorm_shlexQuote, fsNorm_space]
      simp only [List.map_cons, fieldSplit] at ih
      rw [ih]
      simp

lemma mem_of_splitFirstLine {l r : List Char} (h : splitFirstLine l = some r) :
    '\n' ∈ l := by
  induction l with
  | nil => simp [splitFirstLine] at h
  | cons c cs ih =>
    rw [splitFirstLine] at h
    by_cases hc : c = '\n'
    · subst hc; exact List.mem_cons_self _ _
    · rw [if_neg hc] at h
      exact List.mem_cons_of_mem _ (ih h)

lemma splitFirstLine_eq_none {l : List Char} (h : '\n' ∉ l) :
    splitFirstLine l = none := by
  induction l with
  | nil => rfl
  | cons c cs ih =>
    have hc : ¬(c = '\n') := by
      intro hc
      refine h ?_
      rw [← hc]
      exact List.mem_cons_self c cs
    rw [splitFirstLine, if_neg hc]
    exact ih (fun hm => h (List.mem_cons_of_mem _ hm))

lemma matchEnd_regex (re : List Char → List Char → Option Nat) (pat buf : List Char) :
    matchEnd re pat true buf = re pat buf := rfl

lemma matchEnd_literal (re : List Char → List Char → Option Nat) (pat buf : List Char) :
    matchEnd re pat false buf = literalMatchEnd pat buf := rfl

lemma uboot_init_eq_ab {re : List Char → List Char → Option Nat} {cfg : UBootConfig}
    {ch : Channel} {ap : List Char} {k j : Nat} {bl : List Char}
    (hap : cfg.autoboot_prompt = some ap) (hc : ch.closed = false)
    (hm : re ap ch.pending = some k)
    (hm2 : literalMatchEnd cfg.prompt (ch.pending.drop k) = some j)
    (hsp : splitFirstLine (ch.pending.take k) = some bl) :
    uboot_init re cfg (some ch) =
      (Except.ok (bl, ⟨(ch.pending.drop k).drop j, ch.peerClosed, false⟩),
        [BootEvent.read_until ap true, BootEvent.send cfg.autoboot_keys,
         BootEvent.read_until cfg.prompt false]) := by
  simp [uboot_init, hap, read_until_prompt, matchEnd_regex, matchEnd_literal, send_ch, hc, hm, hm2, hsp]

lemma uboot_init_eq_noab {re : List Char → List Char → Option Nat} {cfg : UBootConfig}
    {ch : Channel} {k : Nat} {bl : List Char}
    (hap : cfg.autoboot_prompt = none) (hc : ch.closed = false)
    (hm : literalMatchEnd cfg.prompt ch.pending = some k)
    (hsp : splitFirstLine (ch.pending.take k) = some bl) :
    uboot_init re cfg (some ch) =
      (Except.ok (bl, ⟨ch.pending.drop k, ch.peerClosed, false⟩),
        [BootEvent.read_until cfg.prompt false]) := by
  simp [uboot_init, hap, read_until_prompt, matchEnd_regex, matchEnd_literal, hc, hm, hsp]

lemma uboot_init_ok_ab {re : List Char → List Char → Option Nat} {cfg : UBootConfig}
    {ch : Channel} {ap : List Char} {res : List Char × Channel}
    (hap : cfg.autoboot_prompt = some ap)
    (hok : (uboot_init re cfg (some ch)).1 = Except.ok res) :
    ∃ k j bl, ch.closed = false
      ∧ re ap ch.pending = some k
      ∧ literalMatchEnd cfg.prompt (ch.pending.drop k) = some j
      ∧ splitFirstLine (ch.pending.take k) = some bl
      ∧ res = (bl, ⟨(ch.pending.drop k).drop j, ch.peerClosed, false⟩)
      ∧ (uboot_init re cfg (some ch)).2 =
          [BootEvent.read_until ap true, BootEvent.send cfg.autoboot_keys,
           BootEvent.read_until cfg.prompt false] := by
  by_cases hc : ch.closed
  · exfalso
    simp [uboot_init, hap, read_until_prompt, matchEnd_regex, matchEnd_literal, hc] at hok
  · rw [Bool.not_eq_true] at hc
    cases hm : re ap ch.pending with
    | none => exfalso; simp [uboot_init, hap, read_until_prompt, matchEnd_regex, matchEnd_literal, hc, hm] at hok
    | some k =>
      cases hm2 : literalMatchEnd cfg.prompt (ch.pending.drop k) with
      | none =>
        exfalso
        simp [uboot_init, hap, read_until_prompt, matchEnd_regex, matchEnd_literal, send_ch, hc, hm, hm2] at hok
      | some j =>
        cases hsp : splitFirstLine (ch.pending.take k) with
        | none =>
          exfalso
          simp [uboot_init, hap, read_until_prompt, matchEnd_regex, matchEnd_literal, send_ch, hc, hm, hm2, hsp] at hok
        | some bl =>
          have heq := @uboot_init_eq_ab re cfg ch ap k j bl hap hc hm hm2 hsp
          rw [heq] at hok
          refine ⟨k, j, bl, hc, rfl, hm2, hsp, ?_, ?_⟩
          · exact (Except.ok.inj hok).symm
          · rw [heq]

lemma uboot_init_ok_noab {re : List Char → List Char → Option Nat} {cfg : UBootConfig}
    {ch : Channel} {res : List Char × Channel}
    (hap : cfg.autoboot_prompt = none)
    (hok : (uboot_init re cfg (some ch)).1 = Except.ok res) :
    ∃ k bl, ch.closed = false
      ∧ literalMatchEnd cfg.prompt ch.pending = some k
      ∧ splitFirstLine (ch.pending.take k) = some bl
      ∧ res = (bl, ⟨ch.pending.drop k, ch.peerClosed, false⟩)
      ∧ (uboot_init re cfg (some ch)).2 = [BootEvent.read_until cfg.prompt false] := by
  by_cases hc : ch.closed
  · exfalso
    simp [uboot_init, hap, read_until_prompt, matchEnd_regex, matchEnd_literal, hc] at hok
  · rw [Bool.not_eq_true] at hc
    cases hm : literalMatchEnd cfg.prompt ch.pending with
    | none => exfalso; simp [uboot_init, hap, read_until_prompt, matchEnd_regex, matchEnd_literal, hc, hm] at hok
    | some k =>
      cases hsp : splitFirstLine (ch.pending.take k) with
      | none =>
        exfalso
        simp [uboot_init, hap, read_until_prompt, matchEnd_regex, matchEnd_literal, hc, hm, hsp] at hok
      | some bl =>
        have heq := @uboot_init_eq_noab re cfg ch k bl hap hc hm hsp
        rw [heq] at hok
        refine ⟨k, bl, hc, rfl, hsp, ?_, ?_⟩
        · exact (Except.ok.inj hok).symm
        · rw [heq]

/-- C1: during construction, with autoboot_prompt set the machine
performs exactly one read_until_prompt with the autoboot prompt as a
regex, then one send of autoboot_keys, then one read_until_prompt
with the literal steady prompt; with autoboot_prompt unset it
performs a single read_until_prompt with the literal steady prompt
and sends nothing. -/
theorem uboot_init_channel_sequence (re : List Char → List Char → Option Nat)
    (cfg : UBootConfig) (ch : Channel) (res : List Char × Channel)
    (hok : (uboot_init re cfg (some ch)).1 = Except.ok res) :
    (uboot_init re cfg (some ch)).2 =
      match cfg.autoboot_prompt with
      | some ap =>
          [BootEvent.read_until ap true, BootEvent.send cfg.autoboot_keys,
           BootEvent.read_until cfg.prompt false]
      | none => [BootEvent.read_until cfg.prompt false] := by
  cases hap : cfg.autoboot_prompt with
  | some ap =>
    obtain ⟨k, j, bl, -, -, -, -, -, htr⟩ := uboot_init_ok_ab hap hok
    rw [htr]
  | none =>
    obtain ⟨k, bl, -, -, -, -, htr⟩ := uboot_init_ok_noab hap hok
    rw [htr]

/-- C2: after construction succeeds, bootlog equals the text captured
by the boot-log sink (up to and including the matched autoboot
banner, or, with autoboot disabled, up to and including the steady
prompt) with its first line removed. -/
theorem uboot_init_bootlog (re : List Char → List Char → Option Nat)
    (cfg : UBootConfig) (ch : Channel) (res : List Char × Channel)
    (hok : (uboot_init re cfg (some ch)).1 = Except.ok res) :
    ∃ cap, captured_log re cfg ch = some cap ∧ splitFirstLine cap = some res.1 := by
  cases hap : cfg.autoboot_prompt with
  | some ap =>
    obtain ⟨k, j, bl, -, hm, -, hsp, hres, -⟩ := uboot_init_ok_ab hap hok
    refine ⟨ch.pending.take k, by simp [captured_log, hap, matchEnd, hm], ?_⟩
    rw [hres]
    exact hsp
  | none =>
    obtain ⟨k, bl, -, hm, hsp, hres, -⟩ := uboot_init_ok_noab hap hok
    refine ⟨ch.pending.take k, by simp [captured_log, hap, matchEnd, hm], ?_⟩
    rw [hres]
    exact hsp

/-- C9: constructing a UBootMachine on a board whose channel is None
raises a RuntimeError with no channel interaction at all: the result
is the error and an empty operation trace. -/
theorem uboot_init_no_channel (re : List Char → List Char → Option Nat)
    (cfg : UBootConfig) :
    uboot_init re cfg none = (Except.error UErr.noChannel, []) := rfl

/-- C10: construction succeeds only when the captured log contains a
newline, and when the reads succeed but the captured log has no
newline the constructor fails with the out-of-range indexing error. -/
theorem uboot_init_needs_newline :
    (∀ (re : List Char → List Char → Option Nat) (cfg : UBootConfig) (ch : Channel)
        (res : List Char × Channel),
      (uboot_init re cfg (some ch)).1 = Except.ok res →
        ∃ cap, captured_log re cfg ch = some cap ∧ '\n' ∈ cap)
    ∧ (∀ (re : List Char → List Char → Option Nat) (cfg : UBootConfig) (ch : Channel),
      ch.closed = false →
      (match cfg.autoboot_prompt with
       | some ap => ∃ k, matchEnd re ap true ch.pending = some k
           ∧ '\n' ∉ ch.pending.take k
           ∧ (literalMatchEnd cfg.prompt (ch.pending.drop k)).isSome
       | none => ∃ k, literalMatchEnd cfg.prompt ch.pending = some k
           ∧ '\n' ∉ ch.pending.take k) →
      (uboot_init re cfg (some ch)).1 = Except.error UErr.indexError) := by
  constructor
  · intro re cfg ch res hok
    cases hap : cfg.autoboot_prompt with
    | some ap =>
      obtain ⟨k, j, bl, -, hm, -, hsp, -, -⟩ := uboot_init_ok_ab hap hok
      exact ⟨ch.pending.take k, by simp [captured_log, hap, matchEnd, hm],
        mem_of_splitFirstLine hsp⟩
    | none =>
      obtain ⟨k, bl, -, hm, hsp, -, -⟩ := uboot_init_ok_noab hap hok
      exact ⟨ch.pending.take k, by simp [captured_log, hap, matchEnd, hm],
        mem_of_splitFirstLine hsp⟩
  · intro re cfg ch hc hmm
    cases hap : cfg.autoboot_prompt with
    | some ap =>
      rw [hap] at hmm
      obtain ⟨k, hm, hnl, hj⟩ := hmm
      have hm2 : re ap ch.pending = some k := hm
      obtain ⟨j, hj2⟩ := Option.isSome_iff_exists.mp hj
      simp [uboot_init, hap, read_until_prompt, matchEnd_regex, matchEnd_literal, send_ch, hc, hm2, hj2,
        splitFirstLine_eq_none hnl]
    | none =>
      rw [hap] at hmm
      obtain ⟨k, hm, hnl⟩ := hmm
      simp [uboot_init, hap, read_until_prompt, matchEnd_regex, matchEnd_literal, hc, hm,
        splitFirstLine_eq_none hnl]

/-- Witness for the construction sequence: on the scenario stream the
machine performs exactly regex read, send, literal read. -/
theorem uboot_init_channel_sequence_witness :
    (uboot_init autobootRe sampleCfg (some sampleCh)).2 =
      [BootEvent.read_until ("Hit any key to stop autoboot:\\s+\\d+\\s+".toList) true,
       BootEvent.send ("\n".toList),
       BootEvent.read_until ("=> ".toList) false] :=
  uboot_init_channel_sequence autobootRe sampleCfg sampleCh
    ("Hit any key to stop autoboot:  3 ".toList,
      { pending := [], peerClosed := false, closed := false }) rfl

/-- Witness for the bootlog property on the scenario stream. -/
theorem uboot_init_bootlog_witness :
    ∃ cap, captured_log autobootRe sampleCfg sampleCh = some cap
      ∧ splitFirstLine cap = some ("Hit any key to stop autoboot:  3 ".toList) :=
  uboot_init_bootlog autobootRe sampleCfg sampleCh
    ("Hit any key to stop autoboot:  3 ".toList,
      { pending := [], peerClosed := false, closed := false }) rfl

/-- Witness: on a stream whose captured log has no newline the
constructor fails with the indexing error. -/
theorem uboot_init_needs_newline_witness :
    (uboot_init autobootRe noNlCfg (some noNlCh)).1 = Except.error UErr.indexError :=
  uboot_init_needs_newline.2 autobootRe noNlCfg noNlCh rfl ⟨3, rfl, by decide⟩

/-- C3: exec0 returns exactly the output component of exec's result
when the return code is zero, and otherwise fails with a
CommandFailed error carrying the machine identity, the built command
string and the captured output. -/
theorem exec0_spec (name : List Char) (runCmd : List Char → Int × List Char)
    (args : List UArg) :
    ((exec runCmd args).1 = 0 →
      exec0 name runCmd args = Except.ok (exec runCmd args).2)
    ∧ ((exec runCmd args).1 ≠ 0 →
      exec0 name runCmd args =
        Except.error ⟨name, build_command args, (exec runCmd args).2⟩) := by
  constructor <;> intro h <;> simp [exec0, h]

/-- Witness for exec0 on the specified scenario: exec of the command
false yields return code 1 with empty output, and exec0 fails with a
CommandFailed carrying the command text false. -/
theorem exec0_spec_witness :
    exec0 ("test-uboot".toList) (fun _ => ((1 : Int), ([] : List Char)))
        [UArg.str ("false".toList)] =
      Except.error ⟨"test-uboot".toList, "false".toList, []⟩ :=
  (exec0_spec ("test-uboot".toList) (fun _ => ((1 : Int), ([] : List Char)))
    [UArg.str ("false".toList)]).2 (by decide)

/-- C5: env issues the echo-of-variable command through exec0 and
returns that command's output with exactly the last character
removed. -/
theorem env_spec (name : List Char) (runCmd : List Char → Int × List Char)
    (var : List Char) :
    build_command (env_args var) = "echo ".toList ++ dollar_brace var
    ∧ (∀ out, runCmd (build_command (env_args var)) = (0, out) →
        env name runCmd var = Except.ok out.dropLast) := by
  have hbc : build_command (env_args var) = "echo ".toList ++ dollar_brace var := by
    rw [env_args, build_command_cons, build_command_single]
    have h1 : renderArg (UArg.str ("echo".toList)) = "echo".toList := by decide
    rw [h1]
    rfl
  refine ⟨hbc, ?_⟩
  intro out h
  simp [env, exec0, exec, h, Except.map]

/-- Witness for env: a run returning output with a trailing newline
gives back the value with the newline stripped. -/
theorem env_spec_witness :
    env ("test-uboot".toList) (fun _ => ((0 : Int), "bad-board\n".toList))
        ("UNAME".toList) =
      Except.ok ("bad-board".toList) :=
  (env_spec ("test-uboot".toList) (fun _ => ((0 : Int), "bad-board\n".toList))
    ("UNAME".toList)).2 ("bad-board\n".toList) rfl

/-- C6: the interactive hand-off sends a wake sequence, attaches the
operator, sends another wake sequence and waits for the steady prompt
with the bounded timeout one half; a timeout there is reported as the
distinct reacquire failure, and on success the hand-off returns
normally with the channel still open. -/
theorem interactive_spec (re : List Char → List Char → Option Nat)
    (attachFn : List Char → List Char) (prompt : List Char) (ch : Channel)
    (hc : ch.closed = false) :
    (interactive re attachFn prompt ch).2 =
      [IAct.send wake, IAct.attach, IAct.send wake,
       IAct.read_until_t prompt ((1 : ℚ)/2)]
    ∧ (literalMatchEnd prompt (attachFn ch.pending) = none →
        (interactive re attachFn prompt ch).1 = Except.error UErr.reacquireFailed)
    ∧ (∀ k, literalMatchEnd prompt (attachFn ch.pending) = some k →
        (interactive re attachFn prompt ch).1 =
          Except.ok ⟨(attachFn ch.pending).drop k, ch.peerClosed, false⟩) := by
  refine ⟨?_, ?_, ?_⟩
  · cases hm : literalMatchEnd prompt (attachFn ch.pending) with
    | none =>
      simp [interactive, send_ch, read_until_prompt, matchEnd_literal, hc, hm]
    | some k =>
      simp [interactive, send_ch, read_until_prompt, matchEnd_literal, hc, hm]
  · intro hm
    simp [interactive, send_ch, read_until_prompt, matchEnd_literal, hc, hm]
  · intro k hm
    simp [interactive, send_ch, read_until_prompt, matchEnd_literal, hc, hm]

/-- Witness for the interactive hand-off: with a pass-through operator
session and the prompt arriving, the hand-off re-acquires the prompt
and returns the open channel. -/
theorem interactive_spec_witness :
    (interactive autobootRe id ("=> ".toList)
        { pending := "=> ".toList, peerClosed := false, closed := false }).1 =
      Except.ok ⟨[], false, false⟩ :=
  (interactive_spec autobootRe id ("=> ".toList)
    { pending := "=> ".toList, peerClosed := false, closed := false } rfl).2.2 3 rfl

/-- C7: a board scope performs exactly one poweron and one poweroff,
in that order, with the disconnect immediately before the poweroff,
whether the body finishes normally or with an exception (which is
propagated unchanged); and with the TestBoard power actions the
power flag is always cleared when the scope is left. -/
theorem board_power_lifecycle :
    (∀ (σ ε : Type) (pon poff : σ → σ)
        (body : σ → σ × List PowerEvent × Option ε) (s : σ),
      (body (pon s)).2.1.count PowerEvent.poweron = 0 →
      (body (pon s)).2.1.count PowerEvent.poweroff = 0 →
        (with_board pon poff body s).2.2.count PowerEvent.poweron = 1
        ∧ (with_board pon poff body s).2.2.count PowerEvent.poweroff = 1
        ∧ (∃ mid, (with_board pon poff body s).2.2 =
              PowerEvent.poweron :: (mid ++ [PowerEvent.poweroff])
            ∧ mid.getLast? = some PowerEvent.disconnect
            ∧ mid.count PowerEvent.poweron = 0
            ∧ mid.count PowerEvent.poweroff = 0)
        ∧ (with_board pon poff body s).1 = (body (pon s)).2.2)
    ∧ (∀ (ε : Type) (body : Bool → Bool × List PowerEvent × Option ε) (s : Bool),
        (with_board testboard_poweron testboard_poweroff body s).2.1 = false) := by
  constructor
  · intro σ ε pon poff body s hon hoff
    refine ⟨?_, ?_, ?_, rfl⟩
    · simp [with_board, List.count_append, List.count_cons, hon]
    · simp [with_board, List.count_append, List.count_cons, hoff]
    · refine ⟨PowerEvent.connect :: ((body (pon s)).2.1 ++ [PowerEvent.disconnect]),
        ?_, ?_, ?_, ?_⟩
      · simp [with_board]
      · rw [← List.cons_append, List.getLast?_concat]
      · simp [List.count_append, List.count_cons, hon]
      · simp [List.count_append, List.count_cons, hoff]
  · intro ε body s
    rfl

/-- Witness for the power lifecycle at a concrete body and state. -/
theorem board_power_lifecycle_witness :
    (with_board testboard_poweron testboard_poweroff
        (fun st : Bool => (st, ([] : List PowerEvent), (none : Option Unit)))
        false).2.2.count PowerEvent.poweron = 1 :=
  (board_power_lifecycle.1 Bool Unit testboard_poweron testboard_poweroff
    (fun st => (st, [], none)) false rfl rfl).1

lemma apply_op_closed {ch : Channel} (h : ch.closed = true) (op : ChanOp) :
    (apply_op ch op).2.closed = true := by
  cases op <;> simp [apply_op, send_ch, recv_ch, close_ch, h]

lemma run_ops_closed {ch : Channel} (h : ch.closed = true) (ops : List ChanOp) :
    (run_ops ch ops).closed = true := by
  induction ops generalizing ch with
  | nil => exact h
  | cons op ops ih => exact ih (apply_op_closed h op)

/-- C8: once a channel observes closure — locally via close or by
recv detecting the peer close — isopen reports false and every
subsequent send and recv, anywhere in any further operation sequence,
fails with the channel-closed error; and close is idempotent. -/
theorem channel_closed_sticky :
    (∀ ch : Channel, ch.closed = true →
      isopen ch = false
      ∧ (∀ d, (apply_op ch (ChanOp.send d)).1 = some UErr.channelClosed)
      ∧ (apply_op ch ChanOp.recv).1 = some UErr.channelClosed
      ∧ (∀ ops, (run_ops ch ops).closed = true)
      ∧ (∀ pre op, op ≠ ChanOp.close →
          (apply_op (run_ops ch pre) op).1 = some UErr.channelClosed))
    ∧ (∀ ch : Channel,
        (close_ch ch).closed = true ∧ close_ch (close_ch ch) = close_ch ch)
    ∧ (∀ ch : Channel, ch.closed = false → ch.pending = [] → ch.peerClosed = true →
        (recv_ch ch).1 = Except.error UErr.channelClosed
        ∧ (recv_ch ch).2.closed = true) := by
  refine ⟨?_, ?_, ?_⟩
  · intro ch h
    refine ⟨by simp [isopen, h], ?_, ?_, fun ops => run_ops_closed h ops, ?_⟩
    · intro d
      simp [apply_op, send_ch, h]
    · simp [apply_op, recv_ch, h]
    · intro pre op hop
      have hcl := run_ops_closed h pre
      cases op with
      | send d => simp [apply_op, send_ch, hcl]
      | recv => simp [apply_op, recv_ch, hcl]
      | close => exact absurd rfl hop
  · intro ch
    exact ⟨rfl, rfl⟩
  · intro ch hc hp hpeer
    simp [recv_ch, hc, hp, hpeer]

/-- Witness for closed-channel stickiness: a closed channel with
buffered data still rejects recv. -/
theorem channel_closed_sticky_witness :
    (apply_op { pending := "xy".toList, peerClosed := false, closed := true }
      ChanOp.recv).1 = some UErr.channelClosed :=
  (channel_closed_sticky.1
    { pending := "xy".toList, peerClosed := false, closed := true } rfl).2.2.1

end Tbot
